import Mathlib

/-!
# Verification of the linkedin_crm backend against its specification

Shallow embedding of the repository `MutugiD/linkedin_crm` (a CRM backend for
LinkedIn-sourced lead generation).  The repository's source contains the data
models (SQLAlchemy tables), Pydantic validation schemas, configuration, and a
few implemented API endpoints; the behavioural engines (ProxyPool, RateLimiter,
ScrapeScheduler, SequenceEngine, ScoringEngine) exist in the source only as
table columns and configuration fields, so those operations are modelled from
the specification's component contracts (each such definition is marked
`Modelled from the spec:`).  Everything implemented in the source
(`schemas/lead.py`, `endpoints/auth.py`, `endpoints/health.py`,
`core/config.py`) is translated directly from the code.
-/

/-! ## Configuration (`src/backend/app/core/config.py`)

The `Settings` class fields relevant to scraping and rate limiting, with the
default values given in the source. -/

/-- Scraping / rate-limit settings from `core/config.py` (lines 64-71). -/
structure Settings where
  REQUEST_DELAY_MIN : Nat := 3
  REQUEST_DELAY_MAX : Nat := 7
  MAX_RETRIES : Nat := 3
  SCRAPE_BATCH_SIZE : Nat := 10
  LINKEDIN_RATE_LIMIT_PAUSE : Nat := 3600
deriving Repr

/-- The module-level `settings = Settings()` instance with all defaults. -/
def settings : Settings := {}

/-! ## Lead score validation (`src/backend/app/schemas/lead.py`)

`LeadBase.score` is declared `Field(default=0, ge=0, le=100)` and
`LeadUpdate.score` is declared `Field(default=None, ge=0, le=100)`; Pydantic
rejects any payload whose score violates these bounds.  `None` (absent) is
accepted by both. -/

/-- The Pydantic constraint `ge=0, le=100` on an optional integer score:
`none` passes, `some v` passes iff `0 ≤ v ∧ v ≤ 100`. -/
def scoreConstraintOk (s : Option Int) : Bool :=
  match s with
  | none => true
  | some v => decide (0 ≤ v) && decide (v ≤ 100)

/-- Payload for `LeadCreate` (schemas/lead.py): required `full_name`, optional
`score` with bounds `ge=0, le=100`.  Other optional string fields do not
interact with validation of the score and are elided. -/
structure LeadCreatePayload where
  full_name : String
  score : Option Int := some 0
deriving Repr, DecidableEq

/-- Payload for `LeadUpdate` (schemas/lead.py): every field optional, `score`
bounded by `ge=0, le=100`. -/
structure LeadUpdatePayload where
  full_name : Option String := none
  score : Option Int := none
deriving Repr, DecidableEq

/-- Pydantic validation of a `LeadCreate` payload: succeeds iff the score
constraint holds. -/
def validateLeadCreate (p : LeadCreatePayload) : Bool :=
  scoreConstraintOk p.score

/-- Pydantic validation of a `LeadUpdate` payload: succeeds iff the score
constraint holds. -/
def validateLeadUpdate (p : LeadUpdatePayload) : Bool :=
  scoreConstraintOk p.score

/-! ## Auth endpoint (`src/backend/app/api/api_v1/endpoints/auth.py`)

The `login` handler ignores both the database session and the submitted
credentials and unconditionally returns the constant token payload. -/

/-- Stand-in for the injected `AsyncSession` dependency; the handler never
inspects it. -/
structure AsyncSession where
  sessionId : Nat
deriving Repr, DecidableEq

/-- The `OAuth2PasswordRequestForm` dependency: submitted credentials. -/
structure OAuth2PasswordRequestForm where
  username : String
  password : String
deriving Repr, DecidableEq

/-- The JSON body returned by the auth endpoints. -/
structure TokenResponse where
  access_token : String
  token_type : String
deriving Repr, DecidableEq

/-- The `login` handler from `endpoints/auth.py` lines 14-23: returns the constant
`{"access_token": "dummy_token", "token_type": "bearer"}`; `Except Nat` models
a possible `HTTPException` (status code) that the body never raises. -/
def login (db : AsyncSession) (form_data : OAuth2PasswordRequestForm) :
    Except Nat TokenResponse :=
  Except.ok { access_token := "dummy_token", token_type := "bearer" }

/-! ## Health endpoint (`src/backend/app/api/api_v1/endpoints/health.py`)

`db_health_check` runs `SELECT 1`; the query either raises or returns a
scalar.  Every exception is caught and mapped to a `status: "error"` body. -/

/-- Outcome of `db.execute(text("SELECT 1")).scalar()`: the awaited query
either raises an exception with a message or returns a scalar value
(possibly `None`, possibly not `1`). -/
inductive QueryOutcome where
  | raises (msg : String)
  | returns (scalar : Option Int)
deriving Repr, DecidableEq

/-- The JSON body returned by the health endpoints. -/
structure HealthResponse where
  status : String
  message : String
deriving Repr, DecidableEq

/-- The `db_health_check` handler from `endpoints/health.py` lines 25-44: on a raised
exception returns `{"status": "error", "message": f"Database error: {e}"}`;
on scalar `1` returns ok; on any other scalar returns the unexpected-value
error. -/
def dbHealthCheck (outcome : QueryOutcome) : HealthResponse :=
  match outcome with
  | QueryOutcome.raises msg =>
      { status := "error", message := "Database error: " ++ msg }
  | QueryOutcome.returns v =>
      if v = some 1 then
        { status := "ok", message := "Database connection successful" }
      else
        { status := "error", message := "Database returned unexpected value" }

/-! ## ProxyPool (`src/backend/app/models/scraping.py`, `ProxyServer`; spec §4.1)

The `ProxyServer` table stores `is_blocked`, `block_expires_at`, `last_used`,
`success_count`, `failure_count`; the pool's `acquire` operation is not in the
source. -/

/-- The `ProxyServer` row fields used by pool selection (models/scraping.py
lines 56-87).  Times are seconds since an epoch. -/
structure ProxyServer where
  id : Nat
  is_active : Bool := true
  success_count : Nat := 0
  failure_count : Nat := 0
  last_used : Option Nat := none
  is_blocked : Bool := false
  block_expires_at : Option Nat := none
deriving Repr, DecidableEq

/-- Modelled from the spec: a proxy counts as blocked at time `now` when
`is_blocked` is set and the block has not yet expired (`now <
block_expires_at`); a blocked proxy with no recorded expiry stays blocked. -/
def blockedNow (p : ProxyServer) (now : Nat) : Bool :=
  p.is_blocked &&
    (match p.block_expires_at with
     | some t => decide (now < t)
     | none => true)

/-- Modelled from the spec: selection key for `acquire` — least-recently-used
first (`last_used`, never-used treated as oldest), ties broken by the lower
failure count. -/
def acquireKeyLt (p q : ProxyServer) : Bool :=
  p.last_used.getD 0 < q.last_used.getD 0 ||
    (p.last_used.getD 0 == q.last_used.getD 0 && p.failure_count < q.failure_count)

/-- Modelled from the spec: fold selecting the minimum-key proxy from a
non-empty candidate list. -/
def pickMin (best : ProxyServer) : List ProxyServer → ProxyServer
  | [] => best
  | q :: rest => if acquireKeyLt q best then pickMin q rest else pickMin best rest

/-- Failure mode of `ProxyPool.acquire` (spec §4.1). -/
inductive PoolError where
  | noProxyAvailable
deriving Repr, DecidableEq

/-- Modelled from the spec: `ProxyPool.acquire()` — the ScrapeScheduler's
proxy-selection operation is absent from the source; per spec §4.1 it returns
the least-recently-used non-blocked proxy with the lowest failure rate, and
fails with `NoProxyAvailable` when all proxies are blocked or the pool is
empty. -/
def acquire (pool : List ProxyServer) (now : Nat) : Except PoolError ProxyServer :=
  match pool.filter (fun p => !(blockedNow p now)) with
  | [] => Except.error PoolError.noProxyAvailable
  | x :: xs => Except.ok (pickMin x xs)

/-! ## Proxy failure reporting and backoff (spec §4.1) -/

/-- Modelled from the spec: block backoff duration after `n` previous
consecutive blocks — one hour doubled per consecutive block, capped at 24
hours. -/
def backoffSecs (n : Nat) : Nat :=
  min (3600 * 2 ^ n) 86400

/-- The health-tracking fields of a `ProxyServer` row together with the
consecutive-failure / consecutive-block counters the spec's `report` operation
maintains. -/
structure ProxyHealth where
  success_count : Nat := 0
  failure_count : Nat := 0
  consecutive_failures : Nat := 0
  consecutive_blocks : Nat := 0
  last_failure : Option Nat := none
  last_success : Option Nat := none
  is_blocked : Bool := false
  block_expires_at : Option Nat := none
deriving Repr, DecidableEq

/-- Modelled from the spec: `report(handle, failure)` — records the failure,
and once three consecutive failures accumulate sets `is_blocked := true` with
`block_expires_at = now + backoff`, doubling the backoff per consecutive block
and resetting the consecutive-failure count. -/
def reportFailure (p : ProxyHealth) (now : Nat) : ProxyHealth :=
  let q := { p with
    failure_count := p.failure_count + 1,
    consecutive_failures := p.consecutive_failures + 1,
    last_failure := some now }
  if 3 ≤ q.consecutive_failures then
    { q with
      is_blocked := true,
      block_expires_at := some (now + backoffSecs q.consecutive_blocks),
      consecutive_blocks := q.consecutive_blocks + 1,
      consecutive_failures := 0 }
  else q

/-- Modelled from the spec: `report(handle, success)` — records the success
and resets the consecutive failure/block chains. -/
def reportSuccess (p : ProxyHealth) (now : Nat) : ProxyHealth :=
  { p with
    success_count := p.success_count + 1,
    consecutive_failures := 0,
    consecutive_blocks := 0,
    last_success := some now,
    is_blocked := false,
    block_expires_at := none }

/-! ## ScoringEngine (`src/backend/app/models/scoring.py`; spec §4.5)

`IcpProfile` carries one weight per category and owns `ScoringCriteria` rows
(`criteria_type`, `matcher_type`, `matcher_value`, `score_value`,
`is_active`); `ScoringHistory` records a scoring run.  The `score` function
itself is absent from the source.  Scores use `ℚ` in place of SQL floats. -/

/-- The `criteria_type` of a `ScoringCriteria` row (models/scoring.py line 57):
which lead attribute the criterion examines. -/
inductive CriteriaType where
  | Industry
  | Role
  | Revenue
  | Technology
  | Location
deriving Repr, DecidableEq

/-- The `matcher_type` plus its parsed `matcher_value` (models/scoring.py lines
62-63): Exact / Fuzzy / Range / Contains. -/
inductive Matcher where
  | Exact (value : String)
  | Fuzzy (value : String)
  | Range (lo hi : Int)
  | Contains (value : String)
deriving Repr, DecidableEq

/-- A `ScoringCriteria` row (models/scoring.py lines 50-78). -/
structure ScoringCriteria where
  criteria_type : CriteriaType
  matcher : Matcher
  score_value : ℚ := 1
  is_active : Bool := true
deriving Repr, DecidableEq

/-- An `IcpProfile` row with its owned criteria (models/scoring.py lines
10-44): one weight per scoring category. -/
structure IcpProfile where
  industry_weight : ℚ := 1
  role_weight : ℚ := 1
  revenue_weight : ℚ := 1
  technology_weight : ℚ := 1
  location_weight : ℚ := 1
  criteria : List ScoringCriteria := []
deriving Repr, DecidableEq

/-- The snapshot of the lead fields the scoring categories examine
(models/lead.py: `current_title`, `location`, and the company-derived
industry / revenue / technology attributes). -/
structure LeadSnapshot where
  industry : String := ""
  role : String := ""
  revenue : Int := 0
  technology : String := ""
  location : String := ""
deriving Repr, DecidableEq

/-- The weight of a scoring category under a profile. -/
def categoryWeight (profile : IcpProfile) : CriteriaType → ℚ
  | CriteriaType.Industry => profile.industry_weight
  | CriteriaType.Role => profile.role_weight
  | CriteriaType.Revenue => profile.revenue_weight
  | CriteriaType.Technology => profile.technology_weight
  | CriteriaType.Location => profile.location_weight

/-- The string lead field examined by a category (`Revenue` is numeric and
rendered for the string matchers). -/
def leadFieldString (lead : LeadSnapshot) : CriteriaType → String
  | CriteriaType.Industry => lead.industry
  | CriteriaType.Role => lead.role
  | CriteriaType.Revenue => toString lead.revenue
  | CriteriaType.Technology => lead.technology
  | CriteriaType.Location => lead.location

/-- Whether `needle` occurs as a contiguous run inside the character list. -/
def isInfixChars (needle : List Char) : List Char → Bool
  | [] => needle.isEmpty
  | b :: bs => needle.isPrefixOf (b :: bs) || isInfixChars needle bs

/-- Substring test used by the `Contains` matcher. -/
def strContains (hay needle : String) : Bool :=
  isInfixChars needle.data hay.data

/-- Modelled from the spec: evaluation of one criterion's `matcher_type`
against the corresponding lead field — `Exact` is equality, `Fuzzy` is
case-insensitive equality, `Contains` is a substring test, `Range` applies to
the numeric revenue field. -/
def matcherHolds (lead : LeadSnapshot) (c : ScoringCriteria) : Bool :=
  match c.matcher with
  | Matcher.Exact v => leadFieldString lead c.criteria_type == v
  | Matcher.Fuzzy v =>
      (leadFieldString lead c.criteria_type).toLower == v.toLower
  | Matcher.Contains v => strContains (leadFieldString lead c.criteria_type) v
  | Matcher.Range lo hi =>
      match c.criteria_type with
      | CriteriaType.Revenue => decide (lo ≤ lead.revenue) && decide (lead.revenue ≤ hi)
      | _ => false

/-- Modelled from the spec: a matching active criterion contributes
`score_value * category_weight`; anything else contributes `0`. -/
def criterionContribution (lead : LeadSnapshot) (profile : IcpProfile)
    (c : ScoringCriteria) : ℚ :=
  if c.is_active && matcherHolds lead c then
    c.score_value * categoryWeight profile c.criteria_type
  else 0

/-- Modelled from the spec: the running total over all criteria of the
profile. -/
def computeTotalScore (lead : LeadSnapshot) (profile : IcpProfile) : ℚ :=
  (profile.criteria.map (criterionContribution lead profile)).foldl (· + ·) 0

/-- Modelled from the spec: the `score_breakdown` recording each criterion's
contribution. -/
def computeBreakdown (lead : LeadSnapshot) (profile : IcpProfile) :
    List (CriteriaType × ℚ) :=
  profile.criteria.map (fun c => (c.criteria_type, criterionContribution lead profile c))

/-- A `ScoringHistory` row (models/scoring.py lines 81-114). -/
structure ScoringHistory where
  id : Nat
  lead_id : Nat
  icp_profile_id : Nat
  total_score : ℚ
  score_breakdown : List (CriteriaType × ℚ)
  triggered_by : String
deriving Repr, DecidableEq

/-- The mutable world the scoring entry point runs in: a pseudo-random stream
(available to other engine components), the id allocator, and the persisted
`ScoringHistory` table. -/
structure ScoringWorld where
  rng : Nat
  nextId : Nat
  history : List ScoringHistory
deriving Repr, DecidableEq

/-- Modelled from the spec: `score(lead, icp_profile) -> ScoringHistory` —
absent from the source; per spec §4.5 it computes the weighted total of the
matching active criteria, records the per-criterion breakdown, and appends
exactly one new `ScoringHistory` row.  It reads nothing from the world's
random stream. -/
def scoreLead (w : ScoringWorld) (leadId profileId : Nat) (lead : LeadSnapshot)
    (profile : IcpProfile) (trigger : String) : ScoringWorld × ScoringHistory :=
  let row : ScoringHistory :=
    { id := w.nextId,
      lead_id := leadId,
      icp_profile_id := profileId,
      total_score := computeTotalScore lead profile,
      score_breakdown := computeBreakdown lead profile,
      triggered_by := trigger }
  ({ w with nextId := w.nextId + 1, history := w.history ++ [row] }, row)

/-! ## RateLimiter (spec §4.2; tunables from `core/config.py`)

`reserve(account_id, action_type)` enforces the rolling 24-hour cap per
account and action type and the randomized `REQUEST_DELAY_MIN..MAX` delay
between consecutive actions of the same account. -/

/-- A granted rate-limit permit (spec glossary). -/
structure Permit where
  account : Nat
  action : String
  issuedAt : Nat
deriving Repr, DecidableEq

/-- Outcome of `reserve`: a permit, or a denial carrying the exact wait until
the next permit could be issued. -/
inductive ReserveResult where
  | granted (p : Permit)
  | denied (retryAfter : Nat)
deriving Repr, DecidableEq

/-- RateLimiter state: per account, the issued `(action_type, time)` permits,
newest first, plus the per-account-per-action daily cap. -/
structure RateLimiter where
  permits : Nat → List (String × Nat)
  dailyCap : Nat

/-- The issue times of all permits held for an account, newest first. -/
def permitTimes (rl : RateLimiter) (acc : Nat) : List Nat :=
  (rl.permits acc).map Prod.snd

/-- Modelled from the spec: the randomized inter-action delay, drawn from
`REQUEST_DELAY_MIN..REQUEST_DELAY_MAX` using the supplied random value. -/
def randomizedDelay (r : Nat) : Nat :=
  settings.REQUEST_DELAY_MIN +
    r % (settings.REQUEST_DELAY_MAX - settings.REQUEST_DELAY_MIN + 1)

/-- Number of permits for `action` issued to this account within the rolling
24-hour window ending at `now`. -/
def windowCount (entries : List (String × Nat)) (action : String) (now : Nat) : Nat :=
  entries.countP (fun e => e.1 == action && decide (now < e.2 + 86400))

/-- Issue times of the windowed permits for `action`, for computing when the
oldest one leaves the window. -/
def windowTimes (entries : List (String × Nat)) (action : String) (now : Nat) : List Nat :=
  (entries.filter (fun e => e.1 == action && decide (now < e.2 + 86400))).map Prod.snd

/-- Whether the mandatory inter-action delay `d` has elapsed since the
account's most recent permit. -/
def delayOk (entries : List (String × Nat)) (d now : Nat) : Bool :=
  match entries with
  | [] => true
  | (_, t) :: _ => decide (t + d ≤ now)

/-- Remaining inter-action delay at `now` (zero once elapsed). -/
def delayWait (entries : List (String × Nat)) (d now : Nat) : Nat :=
  match entries with
  | [] => 0
  | (_, t) :: _ => t + d - now

/-- Time until the oldest windowed action leaves the rolling 24-hour window
(zero when the cap is not exceeded). -/
def capWait (entries : List (String × Nat)) (action : String) (now cap : Nat) : Nat :=
  if windowCount entries action now < cap then 0
  else ((windowTimes entries action now).foldr min now) + 86400 - now

/-- Modelled from the spec: `reserve(account_id, action_type)` — absent from
the source; per spec §4.2 it grants a permit when the account's previous
action is at least the randomized delay old and the rolling 24-hour window
holds fewer than the cap, else denies with the larger of the two waits.
`r` is the randomness drawn for the delay. -/
def reserveStep (rl : RateLimiter) (acc : Nat) (action : String) (now r : Nat) :
    RateLimiter × ReserveResult :=
  if delayOk (rl.permits acc) (randomizedDelay r) now &&
      decide (windowCount (rl.permits acc) action now < rl.dailyCap) then
    ({ rl with
        permits := fun a =>
          if a = acc then (action, now) :: rl.permits acc else rl.permits a },
      ReserveResult.granted { account := acc, action := action, issuedAt := now })
  else
    (rl, ReserveResult.denied
      (max (delayWait (rl.permits acc) (randomizedDelay r) now)
        (capWait (rl.permits acc) action now rl.dailyCap)))

/-- The empty limiter with a given daily cap. -/
def initLimiter (cap : Nat) : RateLimiter :=
  { permits := fun _ => [], dailyCap := cap }

/-- States of the RateLimiter reachable from an empty limiter by `reserve`
calls. -/
inductive RLReachable : RateLimiter → Prop where
  | init (cap : Nat) : RLReachable (initLimiter cap)
  | step (h : RLReachable rl) (acc : Nat) (action : String) (now r : Nat) :
      RLReachable (reserveStep rl acc action now r).1

/-! ## ScrapeScheduler job lifecycle (`src/backend/app/models/scraping.py`;
spec §4.3)

A `ScrapeJob` row carries `status`, `max_items`, and the
`items_found/processed/failed` counters; each discovered item is a
`ScrapeItemResult` row that independently moves Pending → Completed/Failed.
The scheduler itself is absent from the source. -/

/-- The `ScrapeItemResult.status` field (models/scraping.py lines 124-126). -/
inductive ItemStatus where
  | Pending
  | Completed
  | Failed
deriving Repr, DecidableEq

/-- The `ScrapeJob.status` field (models/scraping.py lines 15-17). -/
inductive JobStatus where
  | Pending
  | Running
  | Completed
  | Failed
deriving Repr, DecidableEq

/-- A `ScrapeJob` row with its owned item results: the counters of
models/scraping.py lines 34-36 plus the `max_items` bound of line 24. -/
structure ScrapeJob where
  status : JobStatus := JobStatus.Pending
  max_items : Option Nat := none
  items : List ItemStatus := []
  items_found : Nat := 0
  items_processed : Nat := 0
  items_failed : Nat := 0
deriving Repr, DecidableEq

/-- Whether an item has reached a terminal status. -/
def itemTerminal : ItemStatus → Bool
  | ItemStatus.Pending => false
  | ItemStatus.Completed => true
  | ItemStatus.Failed => true

/-- Number of items currently in the given status. -/
def countStatus (s : ItemStatus) (l : List ItemStatus) : Nat :=
  l.countP (fun a => a == s)

/-- A fresh `Pending` job with no items (the row defaults of
models/scraping.py). -/
def initialJob (maxItems : Option Nat) : ScrapeJob :=
  { max_items := maxItems }

/-- Modelled from the spec: how many `ScrapeItemResult`s a dispatch spawns —
one per discovered item, capped by `max_items`. -/
def spawnCount (j : ScrapeJob) (discovered : Nat) : Nat :=
  match j.max_items with
  | some m => min discovered m
  | none => discovered

/-- Modelled from the spec: dispatching a `Pending` job — it moves to
`Running`, one `Pending` item result is appended per discovered item (capped
by `max_items`), and `items_found` is set to the number spawned. -/
def startJob (j : ScrapeJob) (discovered : Nat) : ScrapeJob :=
  { j with
    status := JobStatus.Running,
    items := List.replicate (spawnCount j discovered) ItemStatus.Pending,
    items_found := spawnCount j discovered }

/-- Modelled from the spec: one item result reaching a terminal status — the
matching counter is updated atomically with the item, and the job transitions
to `Completed` exactly when all spawned items are terminal.  `ok = true`
completes the item, `ok = false` fails it. -/
def resolveItem (j : ScrapeJob) (i : Nat) (ok : Bool) : ScrapeJob :=
  let items' := j.items.set i (if ok then ItemStatus.Completed else ItemStatus.Failed)
  { j with
    items := items',
    items_processed := j.items_processed + (if ok then 1 else 0),
    items_failed := j.items_failed + (if ok then 0 else 1),
    status := if items'.all itemTerminal then JobStatus.Completed else JobStatus.Running }

/-- Modelled from the spec: the job failing as a whole (retries exhausted or a
non-retryable error). -/
def failJob (j : ScrapeJob) : ScrapeJob :=
  { j with status := JobStatus.Failed }

/-- One scheduler operation on a job (spec §4.3 state machine
`Pending → Running → Completed | Failed`). -/
inductive JobStep : ScrapeJob → ScrapeJob → Prop where
  | start (j : ScrapeJob) (discovered : Nat) (h : j.status = JobStatus.Pending) :
      JobStep j (startJob j discovered)
  | resolve (j : ScrapeJob) (i : Nat) (ok : Bool) (hrun : j.status = JobStatus.Running)
      (hi : i < j.items.length) (hp : j.items.get ⟨i, hi⟩ = ItemStatus.Pending) :
      JobStep j (resolveItem j i ok)
  | fail (j : ScrapeJob) (hrun : j.status = JobStatus.Running) :
      JobStep j (failJob j)

/-- Job states reachable from a fresh job by scheduler operations. -/
inductive JobReachable : ScrapeJob → Prop where
  | init (maxItems : Option Nat) : JobReachable (initialJob maxItems)
  | step (h : JobReachable j) (hs : JobStep j j') : JobReachable j'

/-- The scheduler's counter invariant: the counters mirror the item statuses,
a completed job has only terminal items, and a pending job has no items. -/
def JobInv (j : ScrapeJob) : Prop :=
  j.items_found = j.items.length ∧
  j.items_processed = countStatus ItemStatus.Completed j.items ∧
  j.items_failed = countStatus ItemStatus.Failed j.items ∧
  (j.status = JobStatus.Completed → j.items.all itemTerminal = true) ∧
  (j.status = JobStatus.Pending → j.items = [])

/-! ## SequenceEngine enrollment state machine
(`src/backend/app/models/outreach.py`; spec §4.4)

A `SequenceEnrollment` row has `status ∈ {Active, Paused, Completed, Stopped}`
and `current_step`; the engine that advances enrollments is absent from the
source. -/

/-- The `SequenceEnrollment.status` field (models/outreach.py line 121). -/
inductive EnrollStatus where
  | Active
  | Paused
  | Completed
  | Stopped
deriving Repr, DecidableEq

/-- A `SequenceEnrollment` row (models/outreach.py lines 113-146) with the
sequence's `max_steps` (line 54) it is enrolled in.  Dates are seconds. -/
structure SequenceEnrollment where
  status : EnrollStatus := EnrollStatus.Active
  current_step : Nat := 1
  max_steps : Nat := 5
  next_step_date : Option Nat := none
  last_step_date : Option Nat := none
  has_replied : Bool := false
deriving Repr, DecidableEq

/-- Whether the enrollment's next step is due at time `now`. -/
def stepDue (e : SequenceEnrollment) (now : Nat) : Prop :=
  match e.next_step_date with
  | some t => t ≤ now
  | none => False

/-- Modelled from the spec: advancing one step — `current_step` is
incremented; when no further step exists or `current_step` would exceed
`max_steps`, the status becomes `Completed`, otherwise the next step is
scheduled `wait_days` (in seconds `waitSecs`) ahead. -/
def advanceEnrollment (e : SequenceEnrollment) (now : Nat) (nextWait : Option Nat) :
    SequenceEnrollment :=
  let step' := e.current_step + 1
  match nextWait with
  | none =>
      { e with current_step := step', status := EnrollStatus.Completed,
               last_step_date := some now, next_step_date := none }
  | some waitSecs =>
      if e.max_steps < step' then
        { e with current_step := step', status := EnrollStatus.Completed,
                 last_step_date := some now, next_step_date := none }
      else
        { e with current_step := step',
                 last_step_date := some now,
                 next_step_date := some (now + waitSecs) }

/-- One SequenceEngine operation on an enrollment (spec §4.4:
`Active → (Paused | Completed | Stopped)`, `Paused → Active` resumable; a
reply may stop the enrollment under the stop-on-reply policy). -/
inductive EnrollStep : SequenceEnrollment → SequenceEnrollment → Prop where
  | advance (e : SequenceEnrollment) (now : Nat) (nextWait : Option Nat)
      (h : e.status = EnrollStatus.Active) (hd : stepDue e now) :
      EnrollStep e (advanceEnrollment e now nextWait)
  | pause (e : SequenceEnrollment) (h : e.status = EnrollStatus.Active) :
      EnrollStep e { e with status := EnrollStatus.Paused }
  | resume (e : SequenceEnrollment) (h : e.status = EnrollStatus.Paused) :
      EnrollStep e { e with status := EnrollStatus.Active }
  | reply (e : SequenceEnrollment) (stopOnReply : Bool)
      (h : e.status = EnrollStatus.Active ∨ e.status = EnrollStatus.Paused) :
      EnrollStep e { e with
        has_replied := true,
        status := if stopOnReply then EnrollStatus.Stopped else e.status }
  | stop (e : SequenceEnrollment)
      (h : e.status = EnrollStatus.Active ∨ e.status = EnrollStatus.Paused) :
      EnrollStep e { e with status := EnrollStatus.Stopped }

/-! # Theorems -/

/-- C9: for every database session and every submitted credential form, the
login endpoint returns exactly the constant
`{"access_token": "dummy_token", "token_type": "bearer"}`; it never raises
and never returns an authentication failure. -/
theorem login_always_dummy_token :
    ∀ (db : AsyncSession) (form : OAuth2PasswordRequestForm),
      login db form =
        Except.ok { access_token := "dummy_token", token_type := "bearer" } := by
  intro db form
  rfl

/-- C10: `db_health_check` is total — for every query outcome it returns a
dict whose `status` is `"ok"` or `"error"`, and every raised exception is
mapped to the `{"status": "error", ...}` body rather than propagated. -/
theorem dbHealthCheck_total :
    (∀ o : QueryOutcome,
       (dbHealthCheck o).status = "ok" ∨ (dbHealthCheck o).status = "error") ∧
    (∀ msg : String,
       dbHealthCheck (QueryOutcome.raises msg) =
         { status := "error", message := "Database error: " ++ msg }) := by
  constructor
  · intro o
    cases o with
    | raises msg => right; rfl
    | returns v =>
      by_cases h : v = some 1
      · left; simp [dbHealthCheck, h]
      · right; simp [dbHealthCheck, h]
  · intro msg
    rfl

/-- C8 counterexample: the score `101` is non-negative, yet both lead
creation and lead update reject it — `Field(ge=0, le=100)` bounds the score
above as well, so "any non-negative score value is accepted" is false. -/
theorem lead_score_nonneg_not_accepted :
    (0 : Int) ≤ 101 ∧
    validateLeadCreate { full_name := "Jane Doe", score := some 101 } = false ∧
    validateLeadUpdate { score := some 101 } = false := by
  refine ⟨by decide, rfl, rfl⟩

/-- C8 (amended): the lead-creation and lead-update operations accept a
present score exactly when it lies in `[0, 100]`; in particular every
negative score is rejected, and so is every score above `100`. -/
theorem lead_score_bounds :
    (∀ p : LeadCreatePayload,
       validateLeadCreate p = true ↔ ∀ v ∈ p.score, 0 ≤ v ∧ v ≤ 100) ∧
    (∀ p : LeadUpdatePayload,
       validateLeadUpdate p = true ↔ ∀ v ∈ p.score, 0 ≤ v ∧ v ≤ 100) := by
  constructor
  · intro p
    cases hs : p.score with
    | none => simp [validateLeadCreate, scoreConstraintOk, hs]
    | some v => simp [validateLeadCreate, scoreConstraintOk, hs]
  · intro p
    cases hs : p.score with
    | none => simp [validateLeadUpdate, scoreConstraintOk, hs]
    | some v => simp [validateLeadUpdate, scoreConstraintOk, hs]

/-- Witness for C8's amended theorem at the concrete score `50`. -/
theorem lead_score_bounds_witness : (0 : Int) ≤ 50 ∧ (50 : Int) ≤ 100 :=
  (lead_score_bounds.1 { full_name := "A", score := some 50 }).mp (by decide) 50 rfl

/-- C5: the scoring engine is deterministic — two calls of
`score(lead, icp_profile)` on identical lead and profile snapshots produce
`ScoringHistory` records with identical `total_score`, whatever the rest of
the world state (id allocator, random stream, prior history) is. -/
theorem scoring_deterministic :
    ∀ (w1 w2 : ScoringWorld) (lid pid : Nat) (lead : LeadSnapshot)
      (profile : IcpProfile) (trig : String),
      ((scoreLead w1 lid pid lead profile trig).2).total_score =
        ((scoreLead w2 lid pid lead profile trig).2).total_score := by
  intro w1 w2 lid pid lead profile trig
  rfl

/-- C6: every call to `score(lead, icp_profile)` appends exactly one new
`ScoringHistory` row — the new table is the old table plus one row, its
length grows by one, and the prefix holding every previously created row is
unchanged in all fields. -/
theorem scoringHistory_append_only :
    ∀ (w : ScoringWorld) (lid pid : Nat) (lead : LeadSnapshot)
      (profile : IcpProfile) (trig : String),
      (scoreLead w lid pid lead profile trig).1.history =
          w.history ++ [(scoreLead w lid pid lead profile trig).2] ∧
      (scoreLead w lid pid lead profile trig).1.history.length =
          w.history.length + 1 ∧
      (scoreLead w lid pid lead profile trig).1.history.take w.history.length =
          w.history := by
  intro w lid pid lead profile trig
  refine ⟨rfl, ?_, ?_⟩
  · simp [scoreLead]
  · exact List.take_left _ _

/-- C7: three consecutive failures block a proxy with
`block_expires_at = last_failure + 1h`; a block issued after `n` previous
consecutive blocks lasts `backoffSecs n`, and the backoff doubles per
consecutive block up to the 24-hour ceiling. -/
theorem proxy_block_backoff :
    (∀ (p : ProxyHealth) (t1 t2 t3 : Nat),
       p.consecutive_failures = 0 → p.consecutive_blocks = 0 →
       (reportFailure (reportFailure (reportFailure p t1) t2) t3).is_blocked = true ∧
       (reportFailure (reportFailure (reportFailure p t1) t2) t3).last_failure = some t3 ∧
       (reportFailure (reportFailure (reportFailure p t1) t2) t3).block_expires_at =
         some (t3 + 3600)) ∧
    (∀ (p : ProxyHealth) (now : Nat),
       p.consecutive_failures = 2 →
       (reportFailure p now).block_expires_at =
         some (now + backoffSecs p.consecutive_blocks)) ∧
    (∀ n : Nat,
       backoffSecs (n + 1) = min (2 * backoffSecs n) 86400 ∧ backoffSecs n ≤ 86400) := by
  refine ⟨?_, ?_, ?_⟩
  · intro p t1 t2 t3 h0 hb0
    simp [reportFailure, h0, hb0, backoffSecs]
  · intro p now h2
    simp [reportFailure, h2]
  · intro n
    constructor
    · unfold backoffSecs
      rw [pow_succ]
      generalize (2 : Nat) ^ n = k
      simp only [Nat.min_def]
      split_ifs <;> omega
    · exact Nat.min_le_right _ _

/-- Witness for C7 at a fresh proxy failing at times 10, 20, 30. -/
theorem proxy_block_backoff_witness :
    (reportFailure (reportFailure (reportFailure {} 10) 20) 30).is_blocked = true ∧
    (reportFailure (reportFailure (reportFailure {} 10) 20) 30).last_failure = some 30 ∧
    (reportFailure (reportFailure (reportFailure {} 10) 20) 30).block_expires_at =
      some (30 + 3600) :=
  proxy_block_backoff.1 {} 10 20 30 rfl rfl

/-- The selection fold stays within its candidates. -/
theorem pickMin_mem (l : List ProxyServer) :
    ∀ best, pickMin best l = best ∨ pickMin best l ∈ l := by
  induction l with
  | nil =>
    intro best
    left
    rfl
  | cons q rest ih =>
    intro best
    have hunf : pickMin best (q :: rest) =
        if acquireKeyLt q best then pickMin q rest else pickMin best rest := rfl
    rw [hunf]
    by_cases h : acquireKeyLt q best
    · rw [if_pos h]
      rcases ih q with h1 | h1
      · right; rw [h1]; exact List.mem_cons_self q rest
      · right; exact List.mem_cons_of_mem q h1
    · rw [if_neg h]
      rcases ih best with h1 | h1
      · left; exact h1
      · right; exact List.mem_cons_of_mem q h1

/-- C2: `ProxyPool.acquire()` never returns a proxy that is blocked with an
unexpired (or absent) expiry — the returned proxy `p` satisfies
`¬(p.is_blocked ∧ now < p.block_expires_at)` — and when every proxy in the
pool is blocked (which subsumes the empty pool), `acquire` fails with
`NoProxyAvailable`. -/
theorem proxyPool_acquire_contract (pool : List ProxyServer) (now : Nat) :
    (∀ p : ProxyServer, acquire pool now = Except.ok p →
       ¬(p.is_blocked = true ∧ ∀ t, p.block_expires_at = some t → now < t)) ∧
    ((∀ q ∈ pool, blockedNow q now = true) →
       acquire pool now = Except.error PoolError.noProxyAvailable) := by
  constructor
  · intro p hp
    have hmem : p ∈ pool.filter (fun q => !(blockedNow q now)) := by
      unfold acquire at hp
      cases hf : pool.filter (fun q => !(blockedNow q now)) with
      | nil =>
        rw [hf] at hp
        cases hp
      | cons x xs =>
        rw [hf] at hp
        have hpx : pickMin x xs = p := Except.ok.inj hp
        rcases pickMin_mem xs x with h1 | h1
        · rw [← hpx, h1]; exact List.mem_cons_self x xs
        · rw [← hpx]; exact List.mem_cons_of_mem x h1
    have hblocked : blockedNow p now = false := by
      have h2 := (List.mem_filter.mp hmem).2
      simpa using h2
    rintro ⟨hib, hexp⟩
    unfold blockedNow at hblocked
    rw [hib] at hblocked
    cases hbe : p.block_expires_at with
    | none =>
      rw [hbe] at hblocked
      simp at hblocked
    | some t =>
      rw [hbe] at hblocked
      simp at hblocked
      exact absurd (hexp t hbe) (by omega)
  · intro hall
    unfold acquire
    have hnil : pool.filter (fun q => !(blockedNow q now)) = [] :=
      List.filter_eq_nil_iff.mpr (fun a ha => by simp [hall a ha])
    rw [hnil]

/-- Witness for C2: a pool holding one expired-block proxy and one blocked
proxy at `now = 10`; `acquire` returns the former, and on the all-blocked
sub-pool it fails. -/
theorem proxyPool_acquire_contract_witness :
    ¬((true : Bool) = true ∧
        ∀ t, (some 5 : Option Nat) = some t → 10 < t) ∧
    acquire [{ id := 2, is_blocked := true, block_expires_at := some 99 }] 10 =
      Except.error PoolError.noProxyAvailable := by
  constructor
  · have h := (proxyPool_acquire_contract
      [{ id := 1, is_blocked := true, block_expires_at := some 5 },
       { id := 2, is_blocked := true, block_expires_at := some 99 }] 10).1
      { id := 1, is_blocked := true, block_expires_at := some 5 } rfl
    exact h
  · exact (proxyPool_acquire_contract
      [{ id := 2, is_blocked := true, block_expires_at := some 99 }] 10).2
      (by decide)

/-- The randomized delay is never below the configured minimum. -/
theorem randomizedDelay_ge_min (r : Nat) :
    settings.REQUEST_DELAY_MIN ≤ randomizedDelay r :=
  Nat.le_add_right _ _

/-- One `reserve` call preserves the per-account minimum-gap invariant. -/
theorem reserveStep_preserves_gap (rl : RateLimiter) (acc' : Nat) (action : String)
    (now r : Nat)
    (hinv : ∀ acc, (permitTimes rl acc).Pairwise
      (fun a b => b + settings.REQUEST_DELAY_MIN ≤ a)) :
    ∀ acc, (permitTimes (reserveStep rl acc' action now r).1 acc).Pairwise
      (fun a b => b + settings.REQUEST_DELAY_MIN ≤ a) := by
  intro acc
  unfold reserveStep
  by_cases hcond :
      (delayOk (rl.permits acc') (randomizedDelay r) now &&
        decide (windowCount (rl.permits acc') action now < rl.dailyCap)) = true
  · rw [if_pos hcond]
    have hdelay : delayOk (rl.permits acc') (randomizedDelay r) now = true :=
      (Bool.and_eq_true _ _ |>.mp hcond).1
    by_cases hacc : acc = acc'
    · subst hacc
      simp only [permitTimes]
      rw [if_pos trivial]
      have hmin : settings.REQUEST_DELAY_MIN ≤ randomizedDelay r :=
        randomizedDelay_ge_min r
      cases he : rl.permits acc with
      | nil =>
        simp
      | cons p0 rest =>
        obtain ⟨a0, t0⟩ := p0
        rw [he] at hdelay
        have ht0 : t0 + randomizedDelay r ≤ now := by
          unfold delayOk at hdelay
          exact of_decide_eq_true hdelay
        have hold : ((((a0, t0) :: rest).map Prod.snd)).Pairwise
            (fun a b => b + settings.REQUEST_DELAY_MIN ≤ a) := by
          have h1 := hinv acc
          unfold permitTimes at h1
          rwa [he] at h1
        simp only [List.map_cons] at hold ⊢
        rw [List.pairwise_cons] at hold
        rw [List.pairwise_cons]
        refine ⟨?_, ?_⟩
        · intro b hb
          rcases List.mem_cons.mp hb with rfl | hb
          · omega
          · have hbt0 := hold.1 b hb
            omega
        · rw [List.pairwise_cons]
          exact hold
    · simp only [permitTimes]
      rw [if_neg hacc]
      exact hinv acc
  · rw [if_neg hcond]
    exact hinv acc

/-- C3: in every RateLimiter state reachable by `reserve` calls, the issue
times of the permits held by any one account are pairwise separated by at
least `REQUEST_DELAY_MIN` (the configured minimum, default 3) seconds. -/
theorem rateLimiter_min_gap :
    ∀ rl, RLReachable rl → ∀ acc,
      (permitTimes rl acc).Pairwise
        (fun a b => b + settings.REQUEST_DELAY_MIN ≤ a) := by
  intro rl h
  induction h with
  | init cap =>
    intro acc
    simp [initLimiter, permitTimes]
  | step h acc' action now r ih =>
    exact reserveStep_preserves_gap _ acc' action now r ih

/-- Witness for C3: the state after two grants to account 1 at times 10 and
20. -/
theorem rateLimiter_min_gap_witness :
    (permitTimes
      (reserveStep (reserveStep (initLimiter 100) 1 "message" 10 0).1
        1 "message" 20 0).1 1).Pairwise
      (fun a b => b + settings.REQUEST_DELAY_MIN ≤ a) :=
  rateLimiter_min_gap _
    (RLReachable.step (RLReachable.step (RLReachable.init 100) 1 "message" 10 0)
      1 "message" 20 0) 1

/-- One engine operation never decreases `current_step`. -/
theorem enrollStep_mono {e e' : SequenceEnrollment} (h : EnrollStep e e') :
    e.current_step ≤ e'.current_step := by
  cases h with
  | advance now nextWait h hd =>
    cases nextWait with
    | none => exact Nat.le_succ _
    | some w =>
      simp only [advanceEnrollment]
      split
      · exact Nat.le_succ _
      · exact Nat.le_succ _
  | pause h => exact Nat.le_refl _
  | resume h => exact Nat.le_refl _
  | reply stopOnReply h => exact Nat.le_refl _
  | stop h => exact Nat.le_refl _

/-- Engine operations only fire from `Active` or `Paused` enrollments. -/
theorem enrollStep_from_nonterminal {e e' : SequenceEnrollment} (h : EnrollStep e e') :
    e.status = EnrollStatus.Active ∨ e.status = EnrollStatus.Paused := by
  cases h with
  | advance now nextWait h hd => exact Or.inl h
  | pause h => exact Or.inl h
  | resume h => exact Or.inr h
  | reply stopOnReply h => exact h
  | stop h => exact h

/-- C4: across any sequence of SequenceEngine operations, `current_step`
never decreases, and once the status is `Completed` or `Stopped` no further
operation changes `current_step`. -/
theorem enrollment_step_monotone_frozen :
    ∀ e e', Relation.ReflTransGen EnrollStep e e' →
      e.current_step ≤ e'.current_step ∧
      ((e.status = EnrollStatus.Completed ∨ e.status = EnrollStatus.Stopped) →
        e'.current_step = e.current_step) := by
  intro e e' h
  constructor
  · induction h with
    | refl => exact Nat.le_refl _
    | tail hab hbc ih => exact Nat.le_trans ih (enrollStep_mono hbc)
  · intro hterm
    rcases Relation.ReflTransGen.cases_head h with heq | ⟨c, hstep, _⟩
    · rw [heq]
    · rcases enrollStep_from_nonterminal hstep with h1 | h1 <;>
        rcases hterm with h2 | h2 <;> rw [h1] at h2 <;> cases h2

/-- Witness for C4: pausing a fresh active enrollment. -/
theorem enrollment_step_monotone_frozen_witness :
    ({} : SequenceEnrollment).current_step ≤
      ({ ({} : SequenceEnrollment) with status := EnrollStatus.Paused }).current_step ∧
    ((({} : SequenceEnrollment).status = EnrollStatus.Completed ∨
        ({} : SequenceEnrollment).status = EnrollStatus.Stopped) →
      ({ ({} : SequenceEnrollment) with status := EnrollStatus.Paused }).current_step =
        ({} : SequenceEnrollment).current_step) :=
  enrollment_step_monotone_frozen {} _
    (Relation.ReflTransGen.single (EnrollStep.pause {} rfl))

/-- Updating an entry the predicate rejects changes `countP` by exactly the
new entry's contribution. -/
theorem countP_set_of_get_false {α : Type} (p : α → Bool) :
    ∀ (l : List α) (i : Nat) (hi : i < l.length),
      p (l.get ⟨i, hi⟩) = false → ∀ v,
        (l.set i v).countP p = l.countP p + if p v then 1 else 0 := by
  intro l
  induction l with
  | nil =>
    intro i hi
    simp at hi
  | cons a rest ih =>
    intro i hi hp v
    cases i with
    | zero =>
      have hpa : p a = false := hp
      simp [List.countP_cons, hpa]
    | succ n =>
      have hn : n < rest.length := by simpa using hi
      have hpn : p (rest.get ⟨n, hn⟩) = false := hp
      show ((a :: rest.set n v).countP p) = _
      rw [List.countP_cons, List.countP_cons, ih n hn hpn v]
      exact Nat.add_right_comm _ _ _

/-- The processed and failed counts together count the terminal items. -/
theorem count_terminal_split :
    ∀ l : List ItemStatus,
      countStatus ItemStatus.Completed l + countStatus ItemStatus.Failed l =
        l.countP itemTerminal := by
  intro l
  induction l with
  | nil => rfl
  | cons a rest ih =>
    unfold countStatus at *
    rw [List.countP_cons, List.countP_cons, List.countP_cons]
    cases a <;> simp [itemTerminal] <;> omega

/-- The initial job satisfies the counter invariant. -/
theorem jobInv_init (m : Option Nat) : JobInv (initialJob m) := by
  refine ⟨rfl, rfl, rfl, ?_, ?_⟩
  · intro h
    exact JobStatus.noConfusion h
  · intro h
    rfl

/-- Every scheduler operation preserves the counter invariant. -/
theorem jobInv_step {j j' : ScrapeJob} (hinv : JobInv j) (hstep : JobStep j j') :
    JobInv j' := by
  obtain ⟨hfound, hproc, hfail, hcomp, hpend⟩ := hinv
  cases hstep with
  | start discovered h =>
    have hitems : j.items = [] := hpend h
    refine ⟨by simp [startJob], ?_, ?_, ?_, ?_⟩
    · show j.items_processed = countStatus ItemStatus.Completed
        (List.replicate (spawnCount j discovered) ItemStatus.Pending)
      rw [hproc, hitems]
      unfold countStatus
      rw [List.countP_eq_zero.mpr, List.countP_eq_zero.mpr]
      · intro a ha
        rw [List.eq_of_mem_replicate ha]
        decide
      · intro a ha
        cases ha
    · show j.items_failed = countStatus ItemStatus.Failed
        (List.replicate (spawnCount j discovered) ItemStatus.Pending)
      rw [hfail, hitems]
      unfold countStatus
      rw [List.countP_eq_zero.mpr, List.countP_eq_zero.mpr]
      · intro a ha
        rw [List.eq_of_mem_replicate ha]
        decide
      · intro a ha
        cases ha
    · intro h'
      exact JobStatus.noConfusion h'
    · intro h'
      exact JobStatus.noConfusion h'
  | resolve i ok hrun hi hp =>
    have hpc : ((j.items.get ⟨i, hi⟩) == ItemStatus.Completed) = false := by
      rw [hp]; decide
    have hpf : ((j.items.get ⟨i, hi⟩) == ItemStatus.Failed) = false := by
      rw [hp]; decide
    have hproc2 : j.items_processed =
        j.items.countP (fun a => a == ItemStatus.Completed) := hproc
    have hfail2 : j.items_failed =
        j.items.countP (fun a => a == ItemStatus.Failed) := hfail
    refine ⟨?_, ?_, ?_, ?_, ?_⟩
    · show j.items_found = (j.items.set i _).length
      rw [List.length_set, hfound]
    · show j.items_processed + (if ok then 1 else 0) =
        countStatus ItemStatus.Completed (j.items.set i (if ok then ItemStatus.Completed else ItemStatus.Failed))
      unfold countStatus
      rw [countP_set_of_get_false (fun a => a == ItemStatus.Completed) j.items i hi hpc,
        hproc2]
      cases ok <;> simp
    · show j.items_failed + (if ok then 0 else 1) =
        countStatus ItemStatus.Failed (j.items.set i (if ok then ItemStatus.Completed else ItemStatus.Failed))
      unfold countStatus
      rw [countP_set_of_get_false (fun a => a == ItemStatus.Failed) j.items i hi hpf,
        hfail2]
      cases ok <;> simp
    · intro h'
      by_cases hall : (j.items.set i
          (if ok then ItemStatus.Completed else ItemStatus.Failed)).all itemTerminal = true
      · exact hall
      · exact absurd h' (by simp [resolveItem, hall])
    · intro h'
      by_cases hall : (j.items.set i
          (if ok then ItemStatus.Completed else ItemStatus.Failed)).all itemTerminal = true
      · exact absurd h' (by simp [resolveItem, hall])
      · exact absurd h' (by simp [resolveItem, hall])
  | fail hrun =>
    refine ⟨hfound, hproc, hfail, ?_, ?_⟩
    · intro h'
      exact JobStatus.noConfusion h'
    · intro h'
      exact JobStatus.noConfusion h'

/-- C1: in every job state reachable by the scheduler's operations,
`items_processed + items_failed ≤ items_found`; and whenever the job's
status is `Completed` (in particular at the moment it becomes so),
`items_processed + items_failed = items_found`. -/
theorem scrapeJob_counters :
    ∀ j, JobReachable j →
      (j.items_processed + j.items_failed ≤ j.items_found) ∧
      (j.status = JobStatus.Completed →
        j.items_processed + j.items_failed = j.items_found) := by
  intro j h
  have hinv : JobInv j := by
    induction h with
    | init m => exact jobInv_init m
    | step h hs ih => exact jobInv_step ih hs
  obtain ⟨hfound, hproc, hfail, hcomp, _⟩ := hinv
  constructor
  · rw [hproc, hfail, hfound, count_terminal_split]
    exact List.countP_le_length _
  · intro hc
    have hall := hcomp hc
    rw [hproc, hfail, hfound, count_terminal_split]
    exact List.countP_eq_length.mpr (fun a ha => List.all_eq_true.mp hall a ha)

/-- Witness for C1: a job that spawned one item and completed it. -/
theorem scrapeJob_counters_witness :
    ((resolveItem (startJob (initialJob none) 1) 0 true).items_processed +
        (resolveItem (startJob (initialJob none) 1) 0 true).items_failed ≤
      (resolveItem (startJob (initialJob none) 1) 0 true).items_found) ∧
    ((resolveItem (startJob (initialJob none) 1) 0 true).status = JobStatus.Completed →
      (resolveItem (startJob (initialJob none) 1) 0 true).items_processed +
          (resolveItem (startJob (initialJob none) 1) 0 true).items_failed =
        (resolveItem (startJob (initialJob none) 1) 0 true).items_found) :=
  scrapeJob_counters _
    (JobReachable.step
      (JobReachable.step (JobReachable.init none) (JobStep.start _ 1 rfl))
      (JobStep.resolve _ 0 true rfl (by decide) rfl))
